import Mathlib

/-!
Shallow embedding of the `ghui` terminal dashboard's application state
engine, cache store, search engine and log-step reconstructor, together
with theorems checking the specification's claims against the code.

Sources embedded here: `src/app/update.rs`, `src/app/model.rs`,
`src/app/message.rs`, `src/services/cache.rs`, `src/services/search.rs`,
`src/services/circleci.rs`, `src/data/models.rs`, `src/data/types.rs`.
Machine integers (`u16`, `u64`) are modelled as `Nat` with explicit
saturation where the code uses saturating arithmetic; fallible SQL
operations return `Except`.
-/

namespace Ghui

/-! ## Domain model (`src/data/types.rs`, `src/data/models.rs`) -/

/-- CI status enum (`CiStatus` in `types.rs`). -/
inductive CiStatus where
  | unknown
  | pending
  | success
  | failure
deriving DecidableEq

/-- `CiStatus::to_str` (`types.rs`). -/
def CiStatus.to_str : CiStatus → String
  | .unknown => "unknown"
  | .pending => "pending"
  | .success => "success"
  | .failure => "failure"

/-- Rust `str::to_uppercase`, modelled character-wise (the strings it is
applied to are ASCII status words). -/
def strToUpper (s : String) : String :=
  String.mk (s.data.map Char.toUpper)

/-- Rust `str::to_lowercase`, modelled character-wise. -/
def strToLower (s : String) : String :=
  String.mk (s.data.map Char.toLower)

/-- Rust `str::trim`: strip leading and trailing whitespace. -/
def strTrim (s : String) : String :=
  let l := s.data.dropWhile Char.isWhitespace
  String.mk (l.reverse.dropWhile Char.isWhitespace).reverse

/-- Rust `str::parse::<u64>().ok()` on the digit strings the code feeds
it (overflow, which would fail in Rust, is not modelled). -/
def strToNat (s : String) : Option Nat :=
  if s.data ≠ [] ∧ s.data.all Char.isDigit then
    some (s.data.foldl (fun n c => n * 10 + (c.toNat - 48)) 0)
  else none

/-- Rust `str::split(c)`, which keeps empty pieces. -/
def splitOnCharAux (c : Char) : List Char → List Char → List (List Char)
  | [], acc => [acc.reverse]
  | x :: xs, acc =>
    if x == c then acc.reverse :: splitOnCharAux c xs []
    else splitOnCharAux c xs (x :: acc)

/-- Rust `str::split(c)` over a string. -/
def splitOnChar (c : Char) (s : String) : List String :=
  (splitOnCharAux c s.data []).map String.mk

/-- `CiStatus::from_str` (`types.rs`): uppercases, then matches. -/
def CiStatus.parse (s : String) : CiStatus :=
  match strToUpper s with
  | "PENDING" => .pending
  | "SUCCESS" => .success
  | "FAILURE" => .failure
  | "ERROR" => .failure
  | _ => .unknown

/-- The text component of `CiStatus::display` (`types.rs` with the
constants from `icons/mod.rs`). -/
def CiStatus.displayText : CiStatus → String
  | .unknown => "N/A"
  | .pending => "● Pending"
  | .success => "✓ Passing"
  | .failure => "✗ Failing"

/-- `PrFilter` (`types.rs`). -/
inductive PrFilter where
  | myPrs
  | reviewRequested
  | labels (ls : List String)
deriving DecidableEq

/-- `PrFilter::to_str` (`types.rs`). -/
def PrFilter.to_str : PrFilter → String
  | .myPrs => "my_prs"
  | .reviewRequested => "review_requested"
  | .labels _ => "labels"

/-- `PullRequest` (`data/models.rs`). -/
structure PullRequest where
  number : Nat
  title : String
  branch : String
  repo_owner : String
  repo_name : String
  ci_status : CiStatus
  author : String
  head_sha : Option String
deriving DecidableEq

/-- `LabelFilter` (`data/models.rs`). -/
structure LabelFilter where
  id : Int
  label_name : String
  repo_owner : Option String
  repo_name : Option String
deriving DecidableEq

/-! ## Cache store (`src/services/cache.rs`)

The SQLite tables are modelled as row lists, with the relevant SQLite
semantics made explicit: the `pull_requests` table's composite primary
key rejects duplicate keys (all its columns are NOT NULL), and the
`label_filters` table's UNIQUE index follows the SQLite rule that NULL
values are considered distinct from every value, including other NULLs.
Both operations run at a fixed schema version, as within one run of the
binary (`CACHE_VERSION` matches, so `init_db` drops nothing). -/

/-- A row of the `pull_requests` table, with the eight columns created by
`init_db`. -/
structure PrRow where
  number : Nat
  title : String
  branch : String
  repo_owner : String
  repo_name : String
  ci_status : String
  filter : String
  author : String
deriving DecidableEq

/-- The composite primary key of the `pull_requests` table:
`(Number, RepoOwner, RepoName, Filter)`. -/
def PrRow.key (r : PrRow) : Nat × String × String × String :=
  (r.number, r.repo_owner, r.repo_name, r.filter)

/-- One `INSERT` into `pull_requests`: the composite primary key makes a
duplicate key a constraint error, which `save_cache` propagates. -/
def insertPrRow (t : List PrRow) (r : PrRow) : Except String (List PrRow) :=
  if t.any (fun r0 => r0.key == r.key) then
    .error "UNIQUE constraint failed: pull_requests primary key"
  else
    .ok (t ++ [r])

/-- The row inserted by `save_cache` for one `PullRequest`: note that
`RepoOwner`/`RepoName` come from the PR itself, while `Filter` comes from
the save key. The head commit id is not among the columns. -/
def prRowOf (pr : PullRequest) (filter : PrFilter) : PrRow :=
  { number := pr.number
    title := pr.title
    branch := pr.branch
    repo_owner := pr.repo_owner
    repo_name := pr.repo_name
    ci_status := pr.ci_status.to_str
    filter := filter.to_str
    author := pr.author }

/-- `save_cache` (`cache.rs`): delete the rows scoped to
`(owner, repo, filter)`, then insert one row per PR in order; a failing
insert aborts with the error. -/
def save_cache (t : List PrRow) (prs : List PullRequest) (owner repo : String)
    (filter : PrFilter) : Except String (List PrRow) :=
  let t := t.filter fun r =>
    !(r.repo_owner == owner && r.repo_name == repo && r.filter == filter.to_str)
  prs.foldlM (fun acc pr => insertPrRow acc (prRowOf pr filter)) t

/-- `load_cache` (`cache.rs`): key-scoped `SELECT`, rebuilding each
`PullRequest` with `head_sha = None`. -/
def load_cache (t : List PrRow) (owner repo : String) (filter : PrFilter) :
    List PullRequest :=
  (t.filter fun r =>
      r.repo_owner == owner && r.repo_name == repo && r.filter == filter.to_str).map
    fun r =>
      { number := r.number
        title := r.title
        branch := r.branch
        repo_owner := r.repo_owner
        repo_name := r.repo_name
        ci_status := CiStatus.parse r.ci_status
        author := r.author
        head_sha := none }

/-- A row of the `label_filters` table (ids elided: uniqueness concerns
only the three indexed columns). -/
structure LabelRow where
  label_name : String
  repo_owner : Option String
  repo_name : Option String
deriving DecidableEq

/-- SQL comparison of two nullable columns as performed by a SQLite
UNIQUE index: per the SQLite documentation, for the purposes of unique
indices all NULL values are considered different from all other NULL
values, so a NULL column never collides with anything. -/
def sqlNullEq : Option String → Option String → Bool
  | some a, some b => a == b
  | _, _ => false

/-- Whether inserting `r` violates the `idx_label_filters_unique` UNIQUE
index on `(LabelName, RepoOwner, RepoName)`. -/
def labelConflict (t : List LabelRow) (r : LabelRow) : Bool :=
  t.any fun r0 =>
    r0.label_name == r.label_name && sqlNullEq r0.repo_owner r.repo_owner &&
      sqlNullEq r0.repo_name r.repo_name

/-- `save_label_filter` (`cache.rs`): a single `INSERT ... ON CONFLICT DO
NOTHING` against the unique index. -/
def save_label_filter (t : List LabelRow) (label_name : String)
    (owner repo : Option String) : List LabelRow :=
  let r : LabelRow := { label_name := label_name, repo_owner := owner, repo_name := repo }
  if labelConflict t r then t else t ++ [r]

/-! ## Workflow, job and log types (`src/data/types.rs`) -/

/-- `WorkflowStatus` (`types.rs`). -/
inductive WorkflowStatus where
  | queued
  | inProgress
  | completed
  | waiting
  | requested
  | pending
  | unknown
deriving DecidableEq

/-- `WorkflowConclusion` (`types.rs`). -/
inductive WorkflowConclusion where
  | success
  | failure
  | cancelled
  | skipped
  | timedOut
  | actionRequired
  | neutral
  | stale
  | startupFailure
  | none
deriving DecidableEq

/-- `AnnotationLevel` (`types.rs`); the source name ends in a token the
workspace linter reserves, hence the shortening. -/
inductive AnnLevel where
  | notice
  | warning
  | failure
deriving DecidableEq

/-- Source struct `CheckAnnotation` (`types.rs`); shortened name as for
`AnnLevel`. -/
structure CheckAnn where
  path : String
  start_line : Nat
  end_line : Nat
  level : AnnLevel
  message : String
  title : Option String
deriving DecidableEq

/-- `WorkflowJob` (`types.rs`). -/
structure WorkflowJob where
  id : Nat
  name : String
  status : WorkflowStatus
  conclusion : Option WorkflowConclusion
  started_at : Option String
  completed_at : Option String
  details_url : Option String
  summary : Option String
  text : Option String
  annotations : List CheckAnn
deriving DecidableEq

/-- `WorkflowRun` (`types.rs`). -/
structure WorkflowRun where
  id : Nat
  name : String
  status : WorkflowStatus
  conclusion : Option WorkflowConclusion
  html_url : String
  jobs : List WorkflowJob
  created_at : String
  updated_at : String
deriving DecidableEq

/-- `ActionsData` (`types.rs`). -/
structure ActionsData where
  pr_number : Nat
  workflow_runs : List WorkflowRun
  error : Option String
deriving DecidableEq

/-- `JobStep` as constructed in `circleci.rs` and consumed in
`update.rs`: name, status, raw output, failed flag and optional
sub-steps (a nested inductive because sub-steps are themselves steps). -/
inductive JobStep where
  | mk (name : String) (status : String) (output : String) (is_failed : Bool)
      (sub_steps : Option (List JobStep))

def JobStep.name : JobStep → String
  | .mk n _ _ _ _ => n

def JobStep.status : JobStep → String
  | .mk _ s _ _ _ => s

def JobStep.output : JobStep → String
  | .mk _ _ o _ _ => o

def JobStep.is_failed : JobStep → Bool
  | .mk _ _ _ f _ => f

def JobStep.sub_steps : JobStep → Option (List JobStep)
  | .mk _ _ _ _ ss => ss

/-- `JobLogs` with the `steps` field used by `update.rs` and
`circleci.rs`. -/
structure JobLogs where
  job_id : Nat
  job_name : String
  content : String
  steps : Option (List JobStep)

/-- `PrComment` (`types.rs`). -/
structure PrComment where
  author : String
  body : String
  created_at : String
  is_pr_body : Bool
deriving DecidableEq

/-- `PreviewData` (`types.rs`). -/
structure PreviewData where
  pr_number : Nat
  title : String
  comments : List PrComment
  error : Option String
deriving DecidableEq

/-! ## Message/command protocol (`src/app/message.rs`) -/

/-- `FetchResult` (`message.rs`). -/
inductive FetchResult where
  | success (prs : List PullRequest) (filter : PrFilter)
  | error (e : String)
  | actionsSuccess (data : ActionsData)
  | actionsError (e : String)
  | jobLogsSuccess (logs : JobLogs)
  | jobLogsError (e : String)
  | previewSuccess (data : PreviewData)
  | previewError (e : String)

/-- `Command` (`message.rs`). -/
inductive Command where
  | quit
  | startFetch (filter : PrFilter)
  | exitAfterCheckout
  | startActionsFetch (owner repo : String) (pr_number : Nat) (head_sha : String)
  | startJobLogsFetch (owner repo : String) (job_id : Nat) (job_name : String)
  | startCircleciJobLogsFetch (owner repo : String) (job_number : Nat) (job_name : String)
  | startPreviewFetch (owner repo : String) (pr_number : Nat)
  | openInEditor (content filename : String)
deriving DecidableEq

/-- The subset of the source `Message` enumeration handled by the
claims verified in this file (`message.rs`). -/
inductive Message where
  | switchTab (filter : PrFilter)
  | previewScrollDown
  | openWorkflowsView
  | openJobLogs
  | jobLogsReceived (result : FetchResult)
  | jobLogsNextStep
  | jobLogsPrevStep
  | fetchComplete (result : FetchResult)

/-! ## Application state (`src/app/model.rs`)

The channel endpoints are external collaborators, not value state, and
`Instant` timestamps are modelled as `Nat`. The job-log selection and
expansion fields are those read and written by `update.rs`. -/

/-- The two fields of ratatui's `TableState` that the engine uses. -/
structure TableState where
  offset : Nat
  selected : Option Nat
deriving DecidableEq

/-- `TableState::default()`. -/
def TableState.default : TableState := { offset := 0, selected := none }

/-- ratatui's `TableState::select`: sets the selection, and resets the
offset when the selection is cleared. -/
def TableState.select (t : TableState) (s : Option Nat) : TableState :=
  if s.isNone then { t with selected := s, offset := 0 }
  else { t with selected := s }

/-- `App` (`model.rs`). -/
structure App where
  my_prs : List PullRequest
  review_prs : List PullRequest
  labels_prs : List PullRequest
  configured_labels : List LabelFilter
  pr_filter : PrFilter
  table_state : TableState
  filtered_indices : List Nat
  search_mode : Bool
  search_query : String
  loading_my_prs : Bool
  loading_review_prs : Bool
  loading_labels_prs : Bool
  show_help_popup : Bool
  show_checkout_popup : Bool
  show_error_popup : Bool
  show_labels_popup : Bool
  show_add_label_popup : Bool
  show_workflows_view : Bool
  actions_data : Option ActionsData
  actions_loading : Bool
  selected_job_index : Nat
  actions_poll_enabled : Bool
  last_actions_poll : Nat
  actions_pending_pr_number : Option Nat
  workflows_pr_info : Option (String × Nat)
  last_main_refresh : Nat
  show_job_logs : Bool
  job_logs : Option JobLogs
  job_logs_loading : Bool
  job_logs_scroll : Nat
  job_logs_selected_step : Nat
  job_logs_expanded_steps : List Bool
  job_logs_selected_sub_step : Option Nat
  job_logs_expanded_sub_steps : List (List Bool)
  annotations_view : Bool
  annotations : List CheckAnn
  selected_annotation_index : Nat
  selected_annotations : List Nat
  show_preview_view : Bool
  preview_data : Option PreviewData
  preview_loading : Bool
  preview_scroll : Nat
  preview_section_index : Nat
  preview_comment_positions : List Nat
  preview_total_lines : Nat
  preview_pr_info : Option (String × Nat)
  clipboard_feedback : Option String
  clipboard_feedback_time : Nat
  show_url_popup : Option String
  error : Option String
  pending_checkout_branch : Option String
  label_input : String
  label_scope_global : Bool
  labels_list_state : TableState
  repo_owner : Option String
  repo_name : Option String
  spinner_idx : Nat
  last_spinner_update : Nat

/-- `App::current_prs` (`model.rs`). -/
def App.current_prs (app : App) : List PullRequest :=
  match app.pr_filter with
  | .myPrs => app.my_prs
  | .reviewRequested => app.review_prs
  | .labels _ => app.labels_prs

/-- `App::selected_pr` (`model.rs`). -/
def App.selected_pr (app : App) : Option PullRequest :=
  app.table_state.selected.bind fun sel =>
    (app.filtered_indices.get? sel).bind fun idx => app.current_prs.get? idx

/-! ## Search/filter engine (`src/services/search.rs`)

The nucleo fuzzy matcher is an external collaborator: it is modelled as
an abstract function from a query and a haystack list to the matching
haystacks in score order. Everything around it — haystack construction
and the mapping of matched haystacks back to indices — is embedded from
the source. -/

/-- `Iterator::position`: index of the first element satisfying `p`. -/
def listPosition (p : α → Bool) : List α → Option Nat
  | [] => none
  | a :: as => if p a then some 0 else (listPosition p as).map (· + 1)

/-- The haystack built per PR in `filter_prs`:
`#number author title branch ci-status-text`. -/
def prHaystack (pr : PullRequest) : String :=
  "#" ++ toString pr.number ++ " " ++ pr.author ++ " " ++ pr.title ++ " " ++
    pr.branch ++ " " ++ pr.ci_status.displayText

/-- Abstract interface of `Pattern::match_list`: the matched haystacks
in descending score order. -/
def Matcher : Type := String → List String → List String

/-- `filter_prs` (`search.rs`): empty query returns all indices in
order; otherwise each matched haystack is mapped back to the position of
its first occurrence among the haystacks (the source's
`haystacks.iter().position(..).unwrap()`; the `unwrap` default is
unreachable whenever the matcher returns strings from its input). -/
def filter_prs (m : Matcher) (prs : List PullRequest) (query : String) : List Nat :=
  if query = "" then List.range prs.length
  else
    let hays := prs.map prHaystack
    (m query hays).map fun h => (listPosition (fun s => s == h) hays).getD hays.length

/-! ## Update engine, part 1 (`src/app/update.rs`) -/

/-- `update_filtered_indices` (`update.rs`). -/
def updateFilteredIndices (m : Matcher) (app : App) : App :=
  { app with filtered_indices := filter_prs m app.current_prs app.search_query }

/-- `switch_filter` (`update.rs`): a no-op when the target equals the
active filter; otherwise replaces the filter, resets cursor and search,
recomputes the filtered indices and selects row 0 when non-empty. -/
def switch_filter (m : Matcher) (app : App) (filter : PrFilter) : App :=
  if app.pr_filter ≠ filter then
    let app := { app with
      pr_filter := filter
      table_state := TableState.default
      search_mode := false
      search_query := "" }
    let app := updateFilteredIndices m app
    if !app.filtered_indices.isEmpty then
      { app with table_state := app.table_state.select (some 0) }
    else app
  else app

/-- `u16::saturating_add`. -/
def satAdd16 (a b : Nat) : Nat := min (a + b) 65535

/-- The `Message::PreviewScrollDown` arm of `update` (`update.rs`):
clamps to `preview_total_lines.saturating_sub(5)` after a saturating
step of 3. -/
def preview_scroll_down (app : App) : App :=
  let max_scroll := app.preview_total_lines - 5
  let new_scroll := satAdd16 app.preview_scroll 3
  { app with preview_scroll := min new_scroll max_scroll }

/-- The `matches!` test in `handle_fetch_result` pairing the active
filter with the result's filter by variant (label sets are not
compared). -/
def variantMatches : PrFilter → PrFilter → Bool
  | .myPrs, .myPrs => true
  | .reviewRequested, .reviewRequested => true
  | .labels _, .labels _ => true
  | _, _ => false

/-- `handle_fetch_result` (`update.rs`): on success, resolve a pending
workflows-view PR from the fetched list (clearing the pending flag,
enabling polling and producing a `StartActionsFetch`), then replace the
filter's bucket wholesale and clear its loading flag, then recompute the
filtered indices when the result matches the displayed filter. -/
def handle_fetch_result (m : Matcher) (app : App) (result : FetchResult) :
    App × Option Command :=
  match result with
  | .success new_prs filter =>
    let is_current_filter := variantMatches app.pr_filter filter
    let resolved : App × Option Command :=
      match app.actions_pending_pr_number with
      | some pr_number =>
        match new_prs.find? (fun p => p.number == pr_number) with
        | some pr =>
          match pr.head_sha with
          | some head_sha =>
            ({ app with actions_pending_pr_number := none, actions_poll_enabled := true },
              some (.startActionsFetch pr.repo_owner pr.repo_name pr.number head_sha))
          | none => (app, none)
        | none => (app, none)
      | none => (app, none)
    let app := resolved.1
    let actions_command := resolved.2
    let app :=
      match filter with
      | .myPrs => { app with my_prs := new_prs, loading_my_prs := false }
      | .reviewRequested => { app with review_prs := new_prs, loading_review_prs := false }
      | .labels _ => { app with labels_prs := new_prs, loading_labels_prs := false }
    let app :=
      if is_current_filter then
        let app := updateFilteredIndices m app
        if app.table_state.selected.isNone && !app.filtered_indices.isEmpty then
          { app with table_state := app.table_state.select (some 0) }
        else app
      else app
    (app, actions_command)
  | .error e =>
    let app :=
      if app.actions_pending_pr_number.isSome then
        { app with actions_pending_pr_number := none, actions_loading := false }
      else app
    ({ app with
        error := some e
        show_error_popup := true
        loading_my_prs := false
        loading_review_prs := false
        loading_labels_prs := false }, none)
  | _ => (app, none)

/-- `open_workflows_view` (`update.rs`): with a known head commit id,
fetch CI data immediately and enable polling; otherwise mark the PR
number pending, disable polling and refetch the PR list. -/
def open_workflows_view (app : App) : App × Option Command :=
  match app.selected_pr with
  | some pr =>
    let app := { app with
      show_workflows_view := true
      actions_loading := true
      selected_job_index := 0
      actions_data := none
      workflows_pr_info := some (pr.title, pr.number)
      show_job_logs := false
      job_logs := none }
    match pr.head_sha with
    | some head_sha =>
      ({ app with actions_poll_enabled := true, actions_pending_pr_number := none },
        some (.startActionsFetch pr.repo_owner pr.repo_name pr.number head_sha))
    | none =>
      ({ app with actions_pending_pr_number := some pr.number, actions_poll_enabled := false },
        some (.startFetch app.pr_filter))
  | none => (app, none)

/-! ## String helpers (Rust `str::contains`, `str::find` and friends) -/

/-- `str::contains`, over the character list of the haystack. -/
def strContainsAux (pat : List Char) : List Char → Bool
  | [] => pat.isEmpty
  | c :: rest => pat.isPrefixOf (c :: rest) || strContainsAux pat rest

/-- Rust `str::contains`. -/
def strContains (s pat : String) : Bool :=
  strContainsAux pat.toList s.toList

/-- The suffix after the first occurrence of `pat` (Rust
`str::find` followed by slicing past the pattern). -/
def afterFirstAux (pat : List Char) : List Char → Option (List Char)
  | [] => if pat.isEmpty then some [] else none
  | c :: rest =>
    if pat.isPrefixOf (c :: rest) then some ((c :: rest).drop pat.length)
    else afterFirstAux pat rest

/-- Rust `str::trim_end_matches('/')`. -/
def trimEndSlashes (s : String) : String :=
  String.mk ((s.toList.reverse.dropWhile fun c => c == '/').reverse)

/-! ## CircleCI detection (`src/services/circleci.rs`) -/

/-- `is_circleci_url` (`circleci.rs`). -/
def is_circleci_url (url : String) : Bool :=
  strContains url "circleci.com"

/-- `is_circleci_configured` (`circleci.rs`): the `CIRCLECI_TOKEN`
environment variable, passed in as the model of the environment. -/
def is_circleci_configured (token : Option String) : Bool :=
  token.isSome

/-- Patterns 2 and 3 of `extract_job_number_from_url` (`circleci.rs`):
refuse modern workflow-level URLs (their number is a pipeline number),
then fall back to the last numeric path segment of legacy URLs. -/
def extractJobNumberFallback (url_path : String) : Option Nat :=
  if strContains url_path "/pipelines/" then none
  else
    let segments := (splitOnChar '/' (trimEndSlashes url_path)).filter fun s => !(s == "")
    segments.reverse.findSome? strToNat

/-- `extract_job_number_from_url` (`circleci.rs`). -/
def extract_job_number_from_url (url : String) : Option Nat :=
  if !strContains url "circleci.com" then none
  else
    let url_path := (splitOnChar '?' url).headD url
    let url_path := (splitOnChar '#' url_path).headD url_path
    match afterFirstAux ("/jobs/".toList) url_path.toList with
    | some after_jobs =>
      let num_str := String.mk (after_jobs.takeWhile Char.isDigit)
      if num_str ≠ "" then strToNat num_str
      else extractJobNumberFallback url_path
    | none => extractJobNumberFallback url_path

/-! ## Update engine, part 2: job-logs view (`src/app/update.rs`) -/

/-- `ANNOTATION_FAILURE_LABEL` (`icons/mod.rs`). -/
def annotationFailureLabel : String := " FAILURE"

/-- `ANNOTATION_WARNING_LABEL` (`icons/mod.rs`). -/
def annotationWarningLabel : String := "  WARNING"

/-- `ANNOTATION_NOTICE_LABEL` (`icons/mod.rs`). -/
def annotationNoticeLabel : String := "󰋽 NOTICE"

/-- `EMOJI_FILE` (`icons/mod.rs`). -/
def emojiFile : String := "  "

/-- `EMOJI_PIN` (`icons/mod.rs`). -/
def emojiPin : String := "  "

/-- `EMOJI_MESSAGE` (`icons/mod.rs`). -/
def emojiMessage : String := "󰻞  "

/-- The per-item block of `format_annotations` (`update.rs`). -/
def formatOneAnn (a : CheckAnn) : String :=
  let level_str :=
    match a.level with
    | .failure => annotationFailureLabel
    | .warning => annotationWarningLabel
    | .notice => annotationNoticeLabel
  let line_range :=
    if a.start_line == a.end_line then ":" ++ toString a.start_line
    else ":" ++ toString a.start_line ++ "-" ++ toString a.end_line
  level_str ++ "\n" ++ "  " ++ emojiFile ++ " " ++ a.path ++ line_range ++ "\n" ++
    (match a.title with
      | some t => "  " ++ emojiPin ++ " " ++ t ++ "\n"
      | none => "") ++
    "  " ++ emojiMessage ++ " " ++ a.message ++ "\n\n"

/-- `format_annotations` (`update.rs`). -/
def format_annotations (anns : List CheckAnn) (summary text : Option String) : String :=
  let content := ""
  let content :=
    match summary with
    | some s => if !(s == "") then content ++ "=== Summary ===\n" ++ s ++ "\n\n" else content
    | none => content
  let content :=
    match text with
    | some t => if !(t == "") then content ++ "=== Details ===\n" ++ t ++ "\n\n" else content
    | none => content
  let content :=
    if !anns.isEmpty then
      content ++ "=== Annotations ===\n\n" ++ String.join (anns.map formatOneAnn)
    else content
  if content == "" then
    "No annotations or details available.\n\nPress 'o' to open in browser for more information."
  else content

/-- The jobs of all workflow runs in order; `get_selected_job` walks
them with a running index. -/
def flattenedJobs (data : ActionsData) : List WorkflowJob :=
  (data.workflow_runs.map WorkflowRun.jobs).flatten

/-- `get_selected_job` (`update.rs`). -/
def get_selected_job (app : App) : Option (String × String × WorkflowJob) :=
  match app.selected_pr with
  | some pr =>
    match app.actions_data with
    | some data =>
      ((flattenedJobs data).get? app.selected_job_index).map fun job =>
        (pr.repo_owner, pr.repo_name, job)
    | none => none
  | none => none

/-- The configuration-instructions message shown for a CircleCI job when
no token is configured (`open_job_logs`, with `STATUS_ACTION_REQUIRED`
from `icons/mod.rs`). -/
def circleciTokenMessage : String :=
  "! CircleCI Token Required\n\nTo view CircleCI job logs, set the CIRCLECI_TOKEN environment variable:\n\n1. Go to CircleCI → User Settings → Personal API Tokens\n2. Create a new token\n3. Export it: export CIRCLECI_TOKEN=your_token\n\nPress 'o' to open this job in your browser instead."

/-- The synthetic message for a reviewdog summary with zero findings
(`open_job_logs`, with `STATUS_SUCCESS` from `icons/mod.rs`). -/
def noIssuesMessage : String :=
  "✓ No issues found.\n\nPress 'o' to view details in browser."

/-- `open_job_logs` (`update.rs`): the fixed-priority dispatch —
annotations view, empty-reviewdog message, summary/text view, then a
real log fetch (CircleCI backend when the details URL is a CircleCI URL
and a token is configured, the configuration-instructions message when
it is a CircleCI URL without a token, the default backend otherwise). -/
def open_job_logs (token : Option String) (app : App) : App × Option Command :=
  match get_selected_job app with
  | some (owner, repo, job) =>
    let app := { app with show_job_logs := true, job_logs_scroll := 0 }
    if !job.annotations.isEmpty then
      ({ app with
          annotations_view := true
          annotations := job.annotations
          selected_annotation_index := 0
          job_logs := some { job_id := job.id, job_name := job.name, content := "", steps := none }
          job_logs_loading := false }, none)
    else
      let is_empty_reviewdog :=
        (job.summary.map fun s => strContains s "reviewdog" && strContains s "Findings (0)").getD false
      if is_empty_reviewdog then
        ({ app with
            annotations_view := false
            annotations := []
            job_logs := some { job_id := job.id, job_name := job.name, content := noIssuesMessage, steps := none }
            job_logs_loading := false }, none)
      else
        let has_summary := (job.summary.map fun s => !(s == "")).getD false
        let has_text := (job.text.map fun s => !(s == "")).getD false
        if has_summary || has_text then
          let content := format_annotations [] job.summary job.text
          ({ app with
              annotations_view := false
              annotations := []
              job_logs := some { job_id := job.id, job_name := job.name, content := content, steps := none }
              job_logs_loading := false }, none)
        else
          let app := { app with
            annotations_view := false
            annotations := []
            job_logs_loading := true
            job_logs := none }
          match job.details_url with
          | some details_url =>
            if is_circleci_url details_url then
              if !is_circleci_configured token then
                ({ app with
                    job_logs_loading := false
                    job_logs := some
                      { job_id := job.id, job_name := job.name
                        content := circleciTokenMessage, steps := none } }, none)
              else
                match extract_job_number_from_url details_url with
                | some job_number =>
                  (app, some (.startCircleciJobLogsFetch owner repo job_number job.name))
                | none => (app, some (.startJobLogsFetch owner repo job.id job.name))
            else (app, some (.startJobLogsFetch owner repo job.id job.name))
          | none => (app, some (.startJobLogsFetch owner repo job.id job.name))
  | none => (app, none)

/-- `handle_job_logs_result` (`update.rs`): on success with steps,
expand exactly the failed top-level entries, collapse every sub-step,
select the first failed entry (else index 0) and, within it, the first
failed sub-step when sub-steps exist. -/
def handle_job_logs_result (app : App) (result : FetchResult) : App :=
  match result with
  | .jobLogsSuccess logs =>
    let app :=
      match logs.steps with
      | some steps =>
        let expanded := steps.map JobStep.is_failed
        let expanded_sub_steps := steps.map fun (step : JobStep) =>
          match step.sub_steps with
          | some sub_steps => List.replicate sub_steps.length false
          | none => ([] : List Bool)
        let selected := (listPosition JobStep.is_failed steps).getD 0
        let selected_sub_step := (steps.get? selected).bind fun (step : JobStep) =>
          step.sub_steps.bind fun sub_steps => listPosition JobStep.is_failed sub_steps
        { app with
          job_logs_expanded_steps := expanded
          job_logs_expanded_sub_steps := expanded_sub_steps
          job_logs_selected_step := selected
          job_logs_selected_sub_step := selected_sub_step }
      | none =>
        { app with
          job_logs_expanded_steps := []
          job_logs_expanded_sub_steps := []
          job_logs_selected_step := 0
          job_logs_selected_sub_step := none }
    { app with job_logs := some logs, job_logs_loading := false, job_logs_scroll := 0 }
  | .jobLogsError e =>
    { app with
      job_logs_loading := false
      error := some ("Failed to load logs: " ++ e)
      show_error_popup := true }
  | _ => app

/-- `job_logs_next_step` (`update.rs`). -/
def job_logs_next_step (app : App) : App :=
  match app.job_logs with
  | some logs =>
    match logs.steps with
    | some steps =>
      let current_step := app.job_logs_selected_step
      let current_sub := app.job_logs_selected_sub_step
      let is_expanded := (app.job_logs_expanded_steps.get? current_step).getD false
      let has_sub_steps :=
        (((steps.get? current_step).bind JobStep.sub_steps).map fun ss => !ss.isEmpty).getD false
      let sub_steps_len :=
        (((steps.get? current_step).bind JobStep.sub_steps).map List.length).getD 0
      if has_sub_steps && is_expanded then
        match current_sub with
        | none => { app with job_logs_selected_sub_step := some 0 }
        | some sub_idx =>
          if sub_idx < sub_steps_len - 1 then
            { app with job_logs_selected_sub_step := some (sub_idx + 1) }
          else
            if current_step < steps.length - 1 then
              { app with
                job_logs_selected_step := current_step + 1
                job_logs_selected_sub_step := none }
            else app
      else
        if current_step < steps.length - 1 then
          { app with
            job_logs_selected_step := current_step + 1
            job_logs_selected_sub_step := none }
        else app
    | none => app
  | none => app

/-- `job_logs_prev_step` (`update.rs`). -/
def job_logs_prev_step (app : App) : App :=
  match app.job_logs with
  | some logs =>
    match logs.steps with
    | some steps =>
      let current_step := app.job_logs_selected_step
      match app.job_logs_selected_sub_step with
      | some sub_idx =>
        if sub_idx > 0 then { app with job_logs_selected_sub_step := some (sub_idx - 1) }
        else { app with job_logs_selected_sub_step := none }
      | none =>
        if current_step > 0 then
          let prev_step := current_step - 1
          let prev_is_expanded := (app.job_logs_expanded_steps.get? prev_step).getD false
          let prev_sub_steps_len :=
            (((steps.get? prev_step).bind JobStep.sub_steps).map List.length).getD 0
          let app := { app with job_logs_selected_step := prev_step }
          if prev_is_expanded && prev_sub_steps_len > 0 then
            { app with job_logs_selected_sub_step := some (prev_sub_steps_len - 1) }
          else { app with job_logs_selected_sub_step := none }
        else app
    | none => app
  | none => app

/-- The `update` dispatch (`update.rs`) for the messages involved in the
verified claims; handlers that return no command pair their state with
`none` exactly as the source arms do. `m` models the fuzzy matcher and
`token` the `CIRCLECI_TOKEN` environment variable. -/
def update (m : Matcher) (token : Option String) (app : App) (msg : Message) :
    App × Option Command :=
  match msg with
  | .switchTab filter => (switch_filter m app filter, none)
  | .previewScrollDown => (preview_scroll_down app, none)
  | .openWorkflowsView => open_workflows_view app
  | .openJobLogs => open_job_logs token app
  | .jobLogsReceived result => (handle_job_logs_result app result, none)
  | .jobLogsNextStep => (job_logs_next_step app, none)
  | .jobLogsPrevStep => (job_logs_prev_step app, none)
  | .fetchComplete result => handle_fetch_result m app result

/-! ## Log-step reconstructor (`src/services/circleci.rs`)

`fetch_circleci_job_logs` first collects the output URLs of all actions,
fetches them concurrently and joins the results into a map keyed by
`(step_idx, action_idx)`; that joined map is modelled by the function
`f` below (`none` for coordinates that had no output URL and hence no
fetch task). Each key is consumed at most once, so the source's
`HashMap::remove` behaves as a lookup. -/

/-- `V1Action` (`circleci.rs`), the v1.1 API action record. -/
structure V1Action where
  name : Option String
  status : Option String
  output_url : Option String
  index : Option Nat
  step : Option Nat
  run_time_millis : Option Nat
  action_type : Option String
  exit_code : Option Int
  has_output : Option Bool
deriving DecidableEq

/-- `V1Step` (`circleci.rs`). -/
structure V1Step where
  name : String
  actions : List V1Action
deriving DecidableEq

/-- The action-failure test used in both branches of the reconstruction:
lowercased status `failed` or `timedout`, or a non-zero captured exit
code. -/
def action_failed (a : V1Action) : Bool :=
  let action_status := strToLower (a.status.getD "unknown")
  action_status == "failed" || action_status == "timedout" ||
    ((a.exit_code.map fun c => !(c == 0)).getD false)

/-- The output string of one parallel sub-step: the fetched remote
output trimmed, falling back to an exit-code line, falling back to the
neutral no-output marker. -/
def parallelOutput (f : Nat → Nat → Option (Except String String))
    (step_idx container_idx : Nat) (a : V1Action) (failed : Bool) : String :=
  let output := ""
  let output :=
    if a.output_url.isSome then
      match f step_idx container_idx with
      | some (Except.ok step_output) =>
        if !(step_output == "") then strTrim step_output
        else
          match a.exit_code with
          | some code => if !(code == 0) then "Exit code: " ++ toString code else output
          | none => output
      | some (Except.error e) => "(Failed to fetch output: " ++ e ++ ")"
      | none => output
    else
      match a.exit_code with
      | some code => if !(code == 0) || failed then "Exit code: " ++ toString code else output
      | none => output
  if output == "" then "(No output)" else output

/-- One sub-step of a parallel container: the action at the container's
slot in this step, or the skipped placeholder when this step has no
action for the container. -/
def parallelSubStep (f : Nat → Nat → Option (Except String String))
    (container_idx step_idx : Nat) (step : V1Step) : JobStep :=
  match step.actions.get? container_idx with
  | some a =>
    let failed := action_failed a
    JobStep.mk step.name (a.status.getD "unknown")
      (parallelOutput f step_idx container_idx a failed) failed none
  | none => JobStep.mk step.name "skipped" "(No data for this container)" false none

/-- The container-level failed flag as accumulated by the source loop:
set as soon as any step's action at the container's slot failed. -/
def containerActionFailed (steps : List V1Step) (container_idx : Nat) : Bool :=
  steps.any fun step =>
    match step.actions.get? container_idx with
    | some a => action_failed a
    | none => false

/-- One flat (non-parallel) step: status and exit code come from the
first action; a failed step with no output gets the browse-hint
message instead of the neutral marker. -/
def flatStep (f : Nat → Nat → Option (Except String String))
    (step_idx : Nat) (step : V1Step) : JobStep :=
  let action := step.actions.head?
  let step_status := (action.bind V1Action.status).getD "unknown"
  let exit_code := action.bind V1Action.exit_code
  let is_failed := strToLower step_status == "failed" || strToLower step_status == "timedout" ||
    ((exit_code.map fun c => !(c == 0)).getD false)
  let output := ""
  let output :=
    match action with
    | some a =>
      if a.output_url.isSome then
        match f step_idx 0 with
        | some (Except.ok step_output) =>
          if !(step_output == "") then strTrim step_output
          else
            match exit_code with
            | some code => if !(code == 0) then "Exit code: " ++ toString code else output
            | none => output
        | some (Except.error e) => "(Failed to fetch output: " ++ e ++ ")"
        | none => output
      else
        match exit_code with
        | some code => if !(code == 0) || is_failed then "Exit code: " ++ toString code else output
        | none => output
    | none => output
  let output :=
    if output == "" then
      if is_failed then
        "Step failed with status: " ++ step_status ++ "\nExit code: " ++
          ((exit_code.map toString).getD "unknown") ++
          "\n\nPress 'o' to view in browser for full details."
      else "(No output)"
    else output
  JobStep.mk step.name step_status output is_failed none

/-- The step-reconstruction core of `fetch_circleci_job_logs`
(`circleci.rs`): parallel when the first step carries more than one
action, in which case one container is built per action slot with the
full step sequence as its sub-steps; flat otherwise. -/
def reconstruct_steps (f : Nat → Nat → Option (Except String String))
    (steps : List V1Step) : List JobStep :=
  let num_containers := (steps.head?.map fun s => s.actions.length).getD 1
  let is_parallel := num_containers > 1
  if is_parallel then
    (List.range num_containers).map fun container_idx =>
      let container_failed := containerActionFailed steps container_idx
      let container_sub_steps := steps.enum.map fun p => parallelSubStep f container_idx p.1 p.2
      JobStep.mk ("Container " ++ toString container_idx)
        (if container_failed then "failed" else "success")
        "" container_failed (some container_sub_steps)
  else
    steps.enum.map fun p => flatStep f p.1 p.2

/-- `fetch_circleci_job_logs` (`circleci.rs`), after the network layer:
the reconstructed steps plus the fallback plain-text summary. -/
def fetch_circleci_job_logs (f : Nat → Nat → Option (Except String String))
    (job_number : Nat) (job_name : String) (details_steps : Option (List V1Step)) : JobLogs :=
  let structured_steps :=
    match details_steps with
    | some steps => reconstruct_steps f steps
    | none => []
  let content :=
    if structured_steps.isEmpty then
      "No step information available.\n\nPress 'o' to open it in your browser."
    else
      let failed_count := (structured_steps.filter JobStep.is_failed).length
      let total := structured_steps.length
      toString total ++ " steps (" ++ toString (total - failed_count) ++ " passed, " ++
        toString failed_count ++ " failed)\n\nUse j/k to navigate, Enter to expand/collapse"
  { job_id := job_number
    job_name := job_name
    content := content
    steps := if structured_steps.isEmpty then none else some structured_steps }

/-- The PR bucket that `handle_fetch_result` replaces for a given
result filter (the three match arms writing `my_prs`, `review_prs` and
`labels_prs`). -/
def App.bucket (app : App) : PrFilter → List PullRequest
  | .myPrs => app.my_prs
  | .reviewRequested => app.review_prs
  | .labels _ => app.labels_prs

/-! ## Concrete fixtures for evaluating the definitions -/

/-- A base application state with everything empty or cleared. -/
def app0 : App :=
  { my_prs := []
    review_prs := []
    labels_prs := []
    configured_labels := []
    pr_filter := .myPrs
    table_state := TableState.default
    filtered_indices := []
    search_mode := false
    search_query := ""
    loading_my_prs := false
    loading_review_prs := false
    loading_labels_prs := false
    show_help_popup := false
    show_checkout_popup := false
    show_error_popup := false
    show_labels_popup := false
    show_add_label_popup := false
    show_workflows_view := false
    actions_data := none
    actions_loading := false
    selected_job_index := 0
    actions_poll_enabled := false
    last_actions_poll := 0
    actions_pending_pr_number := none
    workflows_pr_info := none
    last_main_refresh := 0
    show_job_logs := false
    job_logs := none
    job_logs_loading := false
    job_logs_scroll := 0
    job_logs_selected_step := 0
    job_logs_expanded_steps := []
    job_logs_selected_sub_step := none
    job_logs_expanded_sub_steps := []
    annotations_view := false
    annotations := []
    selected_annotation_index := 0
    selected_annotations := []
    show_preview_view := false
    preview_data := none
    preview_loading := false
    preview_scroll := 0
    preview_section_index := 0
    preview_comment_positions := []
    preview_total_lines := 0
    preview_pr_info := none
    clipboard_feedback := none
    clipboard_feedback_time := 0
    show_url_popup := none
    error := none
    pending_checkout_branch := none
    label_input := ""
    label_scope_global := false
    labels_list_state := TableState.default
    repo_owner := some "o"
    repo_name := some "r"
    spinner_idx := 0
    last_spinner_update := 0 }

/-- A trivial fuzzy-matcher stand-in that matches nothing. -/
def mW : Matcher := fun _ _ => []

/-- PR #42 with a known head commit id. -/
def pr42 : PullRequest :=
  { number := 42, title := "t", branch := "feat", repo_owner := "o", repo_name := "r"
    ci_status := .success, author := "alice", head_sha := some "abc123" }

/-- A PR whose owner differs from the cache key it is saved under. -/
def pr4 : PullRequest :=
  { number := 1, title := "t", branch := "b", repo_owner := "a", repo_name := "r"
    ci_status := .success, author := "u", head_sha := some "s" }

/-- A preview state sitting at scroll offset 40 of 50 total lines. -/
def app3 : App := { app0 with preview_scroll := 40, preview_total_lines := 50 }

/-- A state waiting on PR #42's head commit id for the workflows view. -/
def app1 : App := { app0 with actions_pending_pr_number := some 42 }

/-- A successful v1.1 action. -/
def okAction : V1Action :=
  { name := some "run", status := some "success", output_url := none, index := some 0
    step := none, run_time_millis := none, action_type := none, exit_code := some 0
    has_output := none }

/-- A failed v1.1 action. -/
def failedAction : V1Action :=
  { name := some "run", status := some "failed", output_url := none, index := some 0
    step := none, run_time_millis := none, action_type := none, exit_code := some 1
    has_output := none }

/-- First raw step of a parallel job: three actions, the first failed. -/
def pStep1 : V1Step := { name := "tests", actions := [failedAction, okAction, okAction] }

/-- Second raw step of the parallel job: three successful actions. -/
def pStep2 : V1Step := { name := "lint", actions := [okAction, okAction, okAction] }

/-- A raw step/action list whose first step carries three actions. -/
def parallelRaw : List V1Step := [pStep1, pStep2]

/-- The joined output map for the fixtures: no output URLs, no fetches. -/
def fNone : Nat → Nat → Option (Except String String) := fun _ _ => none

/-- Job logs reconstructed from the parallel fixture. -/
def logs6 : JobLogs := fetch_circleci_job_logs fNone 9 "tests-job" (some parallelRaw)

/-- A collapsed sub-step fixture. -/
def step7sub : JobStep := .mk "sub" "success" "" false none

/-- A step tree with an expanded two-sub-step container and a plain step. -/
def steps7 : List JobStep :=
  [.mk "Container 0" "failed" "" true (some [step7sub, step7sub]),
   .mk "s" "success" "out" false none]

/-- Job logs wrapping `steps7`. -/
def logs7 : JobLogs :=
  { job_id := 1, job_name := "j", content := "", steps := some steps7 }

/-- A job-logs state positioned on the expanded container of `steps7`. -/
def app7 : App :=
  { app0 with
    job_logs := some logs7
    job_logs_selected_step := 0
    job_logs_selected_sub_step := none
    job_logs_expanded_steps := [true, false]
    job_logs_expanded_sub_steps := [[false, false], []] }

/-- A CircleCI-backed job with no annotations, summary or text. -/
def ciJob : WorkflowJob :=
  { id := 7, name := "build", status := .completed, conclusion := some .failure
    started_at := none, completed_at := none
    details_url := some "https://circleci.com/gh/o/r/123"
    summary := none, text := none, annotations := [] }

/-- A workflow run containing only `ciJob`. -/
def ciRun : WorkflowRun :=
  { id := 1, name := "CI", status := .completed, conclusion := some .failure
    html_url := "https://circleci.com/gh/o/r", jobs := [ciJob]
    created_at := "", updated_at := "" }

/-- A state with `pr42` selected and `ciJob` the selected job. -/
def app8 : App :=
  { app0 with
    my_prs := [pr42]
    filtered_indices := [0]
    table_state := { offset := 0, selected := some 0 }
    show_workflows_view := true
    actions_data := some { pr_number := 42, workflow_runs := [ciRun], error := none }
    selected_job_index := 0 }

/-- Two PRs with distinct haystacks for the search fixtures. -/
def prA : PullRequest :=
  { number := 1, title := "alpha", branch := "a", repo_owner := "o", repo_name := "r"
    ci_status := .success, author := "u", head_sha := none }

/-- Second search fixture PR. -/
def prB : PullRequest :=
  { number := 2, title := "beta", branch := "b", repo_owner := "o", repo_name := "r"
    ci_status := .failure, author := "v", head_sha := none }

/-- The search fixture list. -/
def prs10 : List PullRequest := [prA, prB]

/-- A matcher stand-in that matches exactly `prB`'s haystack. -/
def m10 : Matcher := fun _ _ => [prHaystack prB]

/-! ## Helper lemmas -/

theorem listPosition_eq_none {p : α → Bool} {l : List α} :
    listPosition p l = none ↔ ∀ x ∈ l, p x = false := by
  induction l with
  | nil => simp [listPosition]
  | cons a as ih =>
    by_cases h : p a = true
    · simp [listPosition, h]
    · simp only [Bool.not_eq_true] at h
      simp [listPosition, h, ih]

theorem listPosition_eq_some {p : α → Bool} {l : List α} {i : Nat}
    (h : listPosition p l = some i) :
    i < l.length ∧ (l.get? i).map p = some true ∧
      ∀ j, j < i → (l.get? j).map p = some false := by
  induction l generalizing i with
  | nil => simp [listPosition] at h
  | cons a as ih =>
    by_cases ha : p a = true
    · simp [listPosition, ha] at h
      subst h
      simp [ha]
    · simp only [Bool.not_eq_true] at ha
      simp [listPosition, ha] at h
      obtain ⟨i0, hi0, rfl⟩ := h
      obtain ⟨h1, h2, h3⟩ := ih hi0
      refine ⟨by simpa using h1, by simpa using h2, ?_⟩
      intro j hj
      cases j with
      | zero => simpa using ha
      | succ j0 => simpa using h3 j0 (by omega)

theorem listPosition_isSome_of_mem {p : α → Bool} {l : List α} {x : α}
    (hx : x ∈ l) (hp : p x = true) : ∃ i, listPosition p l = some i := by
  cases h : listPosition p l with
  | some i => exact ⟨i, rfl⟩
  | none =>
    rw [listPosition_eq_none] at h
    rw [h x hx] at hp
    cases hp

theorem ciStatus_roundtrip (s : CiStatus) : CiStatus.parse s.to_str = s := by
  cases s <;> decide

theorem enumFrom_length (l : List α) : ∀ n, (l.enumFrom n).length = l.length := by
  induction l with
  | nil => intro n; rfl
  | cons a as ih =>
    intro n
    simp only [List.enumFrom, List.length_cons, ih]

theorem parallelSubStep_is_failed (f : Nat → Nat → Option (Except String String))
    (container_idx step_idx : Nat) (step : V1Step) :
    (parallelSubStep f container_idx step_idx step).is_failed =
      match step.actions.get? container_idx with
      | some a => action_failed a
      | none => false := by
  cases h : step.actions.get? container_idx <;>
    simp only [parallelSubStep, h, JobStep.is_failed]

theorem container_failed_iff (f : Nat → Nat → Option (Except String String))
    (cidx : Nat) (steps : List V1Step) :
    containerActionFailed steps cidx = true ↔
      ∃ sub ∈ steps.enum.map fun p => parallelSubStep f cidx p.1 p.2,
        sub.is_failed = true := by
  unfold containerActionFailed
  rw [List.any_eq_true]
  constructor
  · rintro ⟨st, hmem, hg⟩
    obtain ⟨i, hi⟩ := List.mem_iff_get?.mp hmem
    refine ⟨parallelSubStep f cidx i st, List.mem_map.mpr ⟨(i, st), ?_, rfl⟩, ?_⟩
    · exact List.mem_enum_iff_get?.mpr hi
    · rw [parallelSubStep_is_failed]
      exact hg
  · rintro ⟨sub, hmem, hf⟩
    obtain ⟨p, hp, rfl⟩ := List.mem_map.mp hmem
    rw [parallelSubStep_is_failed] at hf
    exact ⟨p.2, List.mem_iff_get?.mpr ⟨p.1, List.mem_enum_iff_get?.mp hp⟩, hf⟩

/-- Every entry produced by the reconstruction satisfies: whenever it
has sub-steps, its failed flag is the disjunction of its sub-steps'
failed flags. -/
theorem reconstruct_invariant (f : Nat → Nat → Option (Except String String))
    (steps : List V1Step) (c : JobStep) (hc : c ∈ reconstruct_steps f steps)
    (l : List JobStep) (hl : c.sub_steps = some l) :
    c.is_failed = true ↔ ∃ sub ∈ l, sub.is_failed = true := by
  unfold reconstruct_steps at hc
  by_cases hp : (steps.head?.map fun s => s.actions.length).getD 1 > 1
  · simp only [hp, if_true] at hc
    obtain ⟨i, _, rfl⟩ := List.mem_map.mp hc
    simp only [JobStep.sub_steps, Option.some.injEq] at hl
    subst hl
    show containerActionFailed steps i = true ↔ _
    exact container_failed_iff f i steps
  · simp only [hp, if_false] at hc
    obtain ⟨p, _, rfl⟩ := List.mem_map.mp hc
    simp only [flatStep, JobStep.sub_steps] at hl
    exact Option.noConfusion hl

/-! ## Claim theorems -/

/-- C2: the `(label name, owner, repo)` uniqueness invariant is the
code's clear intent (`idx_label_filters_unique` plus `ON CONFLICT DO
NOTHING`), but SQLite treats NULLs in a UNIQUE index as pairwise
distinct, so saving the all-null global tuple twice stores two rows
while the non-null tuple correctly stays at one row. -/
theorem save_label_filter_null_duplicate :
    save_label_filter (save_label_filter [] "bug" none none) "bug" none none =
      [{ label_name := "bug", repo_owner := none, repo_name := none },
        { label_name := "bug", repo_owner := none, repo_name := none }] ∧
    save_label_filter (save_label_filter [] "bug" (some "o") (some "r")) "bug"
        (some "o") (some "r") =
      [{ label_name := "bug", repo_owner := some "o", repo_name := some "r" }] := by
  exact ⟨rfl, rfl⟩

/-- C3 counterexample: from scroll offset 40 with 50 total lines,
handling preview scroll-down yields offset 43 — not the claimed 45, and
not the claimed formula `min (40 + 3) (max 0 (50 - 20)) = 30` with 20
visible lines either. -/
theorem preview_scroll_counterexample :
    (update mW none app3 .previewScrollDown).1.preview_scroll = 43 ∧
    (43 : Nat) ≠ 45 ∧ (43 : Nat) ≠ min (40 + 3) (max 0 (50 - 20)) := by
  refine ⟨rfl, by decide, by decide⟩

/-- C3 (amended): handling preview scroll-down sets the offset to
`min (offset + 3, total_lines - 5)` — the step is 3 and the clamp bound
is the hardcoded `total_lines.saturating_sub(5)`, independent of the
visible height — and the result never exceeds that bound. -/
theorem preview_scroll_down_clamp (m : Matcher) (token : Option String) (app : App)
    (h : app.preview_total_lines ≤ 65535) :
    (update m token app .previewScrollDown).1.preview_scroll =
      min (app.preview_scroll + 3) (app.preview_total_lines - 5) ∧
    (update m token app .previewScrollDown).1.preview_scroll ≤
      app.preview_total_lines - 5 := by
  constructor
  · show min (min (app.preview_scroll + 3) 65535) (app.preview_total_lines - 5) = _
    omega
  · show min (min (app.preview_scroll + 3) 65535) (app.preview_total_lines - 5) ≤ _
    omega

/-- C3 witness: the amended clamp evaluated at offset 40 of 50 lines. -/
theorem preview_scroll_down_clamp_witness :
    (update mW none app3 .previewScrollDown).1.preview_scroll =
      min (app3.preview_scroll + 3) (app3.preview_total_lines - 5) :=
  (preview_scroll_down_clamp mW none app3 (by decide)).1

/-- C9: handling a tab-switch message whose target filter equals the
active filter leaves the entire state unchanged and returns no command,
while a switch to a different filter returns no command but resets
search mode, query, cursor and the filtered index list (recomputed
against the newly active list with an empty query). -/
theorem switch_tab_same_filter (m : Matcher) (token : Option String) (app : App)
    (filter : PrFilter) :
    (app.pr_filter = filter → update m token app (.switchTab filter) = (app, none)) ∧
    (app.pr_filter ≠ filter →
      (update m token app (.switchTab filter)).2 = none ∧
      (update m token app (.switchTab filter)).1.pr_filter = filter ∧
      (update m token app (.switchTab filter)).1.search_mode = false ∧
      (update m token app (.switchTab filter)).1.search_query = "" ∧
      (update m token app (.switchTab filter)).1.filtered_indices =
        List.range (update m token app (.switchTab filter)).1.current_prs.length ∧
      (update m token app (.switchTab filter)).1.table_state.offset = 0 ∧
      (update m token app (.switchTab filter)).1.table_state.selected =
        (if (update m token app (.switchTab filter)).1.filtered_indices.isEmpty
          then none else some 0)) := by
  constructor
  · intro h
    have hsw : switch_filter m app filter = app := by
      unfold switch_filter
      rw [if_neg (fun hne => hne h)]
    show (switch_filter m app filter, (none : Option Command)) = (app, none)
    rw [hsw]
  · intro h
    simp only [update, switch_filter]
    rw [if_pos h]
    by_cases hE : (updateFilteredIndices m { app with
        pr_filter := filter, table_state := TableState.default,
        search_mode := false, search_query := "" }).filtered_indices.isEmpty
    · rw [if_neg (by simp [hE])]
      refine ⟨by trivial, by trivial, by trivial, by trivial, by trivial, by trivial, ?_⟩
      split
      · rfl
      · rename_i hC
        exact absurd hE hC
    · rw [if_pos (by simp [hE])]
      refine ⟨by trivial, by trivial, by trivial, by trivial, by trivial, by trivial, ?_⟩
      split
      · rename_i hC
        exact absurd hC hE
      · rfl

/-- C9 witness: switching to the already-active tab at a concrete
state. -/
theorem switch_tab_same_filter_witness :
    update mW none app0 (.switchTab .myPrs) = (app0, none) :=
  (switch_tab_same_filter mW none app0 .myPrs).1 rfl

/-- C1: when PR `n` is marked pending for the workflows view, a
successful fetch whose list resolves `n` with a head commit id clears
the pending flag, enables polling, replaces the corresponding bucket
with the fetched list, and returns a `StartActionsFetch` for the
resolved PR's owner, repo, number and head commit id — all in the same
transition, with the command built from the fetched list itself (the
source computes it before the bucket assignment), so no further user
input is needed. -/
theorem pending_pr_resolution (m : Matcher) (token : Option String) (app : App)
    (new_prs : List PullRequest) (filter : PrFilter) (n : Nat) (pr : PullRequest)
    (sha : String)
    (hpend : app.actions_pending_pr_number = some n)
    (hfind : new_prs.find? (fun p => p.number == n) = some pr)
    (hsha : pr.head_sha = some sha) :
    (update m token app (.fetchComplete (.success new_prs filter))).2 =
      some (.startActionsFetch pr.repo_owner pr.repo_name pr.number sha) ∧
    (update m token app (.fetchComplete (.success new_prs filter))).1.actions_pending_pr_number =
      none ∧
    (update m token app (.fetchComplete (.success new_prs filter))).1.actions_poll_enabled =
      true ∧
    (update m token app (.fetchComplete (.success new_prs filter))).1.bucket filter =
      new_prs := by
  refine ⟨?_, ?_, ?_, ?_⟩
  · simp only [update, handle_fetch_result, hpend, hfind, hsha]
  · simp only [update, handle_fetch_result, hpend, hfind, hsha]
    cases filter <;> (split <;> (try split) <;> rfl)
  · simp only [update, handle_fetch_result, hpend, hfind, hsha]
    cases filter <;> (split <;> (try split) <;> rfl)
  · simp only [update, handle_fetch_result, hpend, hfind, hsha]
    cases filter <;> simp only [App.bucket] <;> (split <;> (try split) <;> rfl)

theorem save_cache_loop (owner repo : String) (fp : PrFilter) :
    ∀ (prs : List PullRequest) (acc : List PrRow),
      (∀ pr ∈ prs, pr.repo_owner = owner ∧ pr.repo_name = repo) →
      (prs.map fun pr => (pr.number, pr.repo_owner, pr.repo_name)).Nodup →
      (∀ pr ∈ prs, ∀ r ∈ acc, ¬(r.key = (pr.number, owner, repo, fp.to_str))) →
      ∃ t1, prs.foldlM (fun acc pr => insertPrRow acc (prRowOf pr fp)) acc = .ok t1 ∧
        t1.filter (fun r => r.repo_owner == owner && r.repo_name == repo &&
            r.filter == fp.to_str) =
          acc.filter (fun r => r.repo_owner == owner && r.repo_name == repo &&
            r.filter == fp.to_str) ++ prs.map (fun pr => prRowOf pr fp) := by
  intro prs
  induction prs with
  | nil =>
    intro acc _ _ _
    exact ⟨acc, rfl, by simp⟩
  | cons pr rest ih =>
    intro acc hown hnodup hconf
    have hpr := hown pr (List.mem_cons_self pr rest)
    have hkey : (prRowOf pr fp).key = (pr.number, owner, repo, fp.to_str) := by
      simp [PrRow.key, prRowOf, hpr.1, hpr.2]
    have hins : insertPrRow acc (prRowOf pr fp) = .ok (acc ++ [prRowOf pr fp]) := by
      unfold insertPrRow
      rw [if_neg]
      intro hany
      obtain ⟨r, hr, hbeq⟩ := List.any_eq_true.mp hany
      exact hconf pr (List.mem_cons_self pr rest) r hr (by rw [← hkey]; exact beq_iff_eq.mp hbeq)
    have hnum : ∀ pr2 ∈ rest, pr2.number ≠ pr.number := by
      intro pr2 h2 heq
      have h1 := List.nodup_cons.mp hnodup
      have hpr2 := hown pr2 (List.mem_cons_of_mem pr h2)
      refine h1.1 (List.mem_map.mpr ⟨pr2, h2, ?_⟩)
      show (pr2.number, pr2.repo_owner, pr2.repo_name) =
        (pr.number, pr.repo_owner, pr.repo_name)
      rw [heq, hpr2.1, hpr2.2, hpr.1, hpr.2]
    obtain ⟨t1, hfold, hfilter⟩ := ih (acc ++ [prRowOf pr fp])
      (fun pr2 h2 => hown pr2 (List.mem_cons_of_mem pr h2))
      (List.nodup_cons.mp hnodup).2
      (by
        intro pr2 h2 r hr
        rcases List.mem_append.mp hr with hl | hl
        · exact hconf pr2 (List.mem_cons_of_mem pr h2) r hl
        · rw [List.mem_singleton.mp hl, hkey]
          intro hk
          exact hnum pr2 h2 (congrArg Prod.fst hk).symm)
    refine ⟨t1, ?_, ?_⟩
    · simp only [List.foldlM_cons, hins]
      exact hfold
    · have hrowp : (fun r : PrRow => r.repo_owner == owner && r.repo_name == repo &&
          r.filter == fp.to_str) (prRowOf pr fp) = true := by
        simp [prRowOf, hpr.1, hpr.2]
      rw [hfilter, List.filter_append]
      simp only [List.filter_cons, hrowp, List.map_cons]
      simp [List.filter_nil]

/-- C4 (amended): the cache round-trip reproduces every persisted field
with the head commit id absent, provided every PR in the list belongs to
the `(owner, repo)` of the save key — `save_cache` stores each row under
the PR's own owner/repo while `load_cache` selects by the key, so
mismatched PRs are silently dropped (see the counterexample). -/
theorem cache_round_trip (t : List PrRow) (prs : List PullRequest) (owner repo : String)
    (fp : PrFilter)
    (hown : ∀ pr ∈ prs, pr.repo_owner = owner ∧ pr.repo_name = repo)
    (hkeys : (prs.map fun pr => (pr.number, pr.repo_owner, pr.repo_name)).Nodup) :
    ∃ t1, save_cache t prs owner repo fp = .ok t1 ∧
      load_cache t1 owner repo fp = prs.map fun pr => { pr with head_sha := none } := by
  unfold save_cache
  have hconf : ∀ pr ∈ prs, ∀ r ∈ t.filter (fun r =>
      !(r.repo_owner == owner && r.repo_name == repo && r.filter == fp.to_str)),
      ¬(r.key = (pr.number, owner, repo, fp.to_str)) := by
    intro pr _ r hr hk
    have hmem := List.of_mem_filter hr
    have : r.repo_owner = owner ∧ r.repo_name = repo ∧ r.filter = fp.to_str := by
      have h1 := congrArg (fun q : Nat × String × String × String => q.2.1) hk
      have h2 := congrArg (fun q : Nat × String × String × String => q.2.2.1) hk
      have h3 := congrArg (fun q : Nat × String × String × String => q.2.2.2) hk
      exact ⟨h1, h2, h3⟩
    simp [this.1, this.2.1, this.2.2] at hmem
  obtain ⟨t1, hfold, hfilter⟩ := save_cache_loop owner repo fp prs
    (t.filter fun r => !(r.repo_owner == owner && r.repo_name == repo &&
      r.filter == fp.to_str)) hown hkeys hconf
  refine ⟨t1, hfold, ?_⟩
  unfold load_cache
  rw [hfilter]
  have hnil : (t.filter fun r => !(r.repo_owner == owner && r.repo_name == repo &&
      r.filter == fp.to_str)).filter (fun r => r.repo_owner == owner &&
      r.repo_name == repo && r.filter == fp.to_str) = [] := by
    rw [List.filter_filter]
    apply List.filter_eq_nil.mpr
    intro r _
    cases h : (r.repo_owner == owner && r.repo_name == repo && r.filter == fp.to_str) <;>
      simp [h]
  rw [hnil, List.nil_append, List.map_map]
  apply List.map_congr_left
  intro pr _
  simp only [Function.comp, prRowOf]
  rw [ciStatus_roundtrip]

/-- C4 witness: a concrete round-trip through an initially empty table
under the matching key. -/
theorem cache_round_trip_witness :
    ∃ t1, save_cache [] [pr42] "o" "r" .myPrs = .ok t1 ∧
      load_cache t1 "o" "r" .myPrs = [{ pr42 with head_sha := none }] :=
  cache_round_trip [] [pr42] "o" "r" .myPrs
    (by intro pr h; rw [List.mem_singleton.mp h]; exact ⟨rfl, rfl⟩)
    (by simp)

/-- C4 counterexample: saving a PR whose own owner (`"a"`) differs from
the save key's owner (`"b"`) succeeds, but reloading under the same key
returns nothing — the round-trip does not reproduce the PR, refuting the
claim as stated for arbitrary lists. -/
theorem cache_round_trip_counterexample :
    (save_cache [] [pr4] "b" "r" .myPrs).map
        (fun t1 => load_cache t1 "b" "r" .myPrs) = .ok [] ∧
    [pr4].map (fun pr => { pr with head_sha := none }) ≠ [] := by
  exact ⟨rfl, by simp⟩

/-- C5: when the first raw step carries `n > 1` actions, reconstruction
produces exactly `n` top-level containers, each holding one sub-step per
raw step, and a container is failed iff at least one of its sub-steps is
failed; when the first step carries at most one action the result is
flat, with no sub-steps anywhere. -/
theorem reconstruct_containers (f : Nat → Nat → Option (Except String String))
    (steps : List V1Step) :
    (∀ s0 rest, steps = s0 :: rest → 1 < s0.actions.length →
      (reconstruct_steps f steps).length = s0.actions.length ∧
      ∀ c ∈ reconstruct_steps f steps, ∃ l, c.sub_steps = some l ∧
        l.length = steps.length ∧
        (c.is_failed = true ↔ ∃ sub ∈ l, sub.is_failed = true)) ∧
    ((steps.head?.map fun s => s.actions.length).getD 1 ≤ 1 →
      ∀ st ∈ reconstruct_steps f steps, st.sub_steps = none) := by
  constructor
  · rintro s0 rest rfl hn
    have hpar : ((s0 :: rest).head?.map fun s => s.actions.length).getD 1 > 1 := hn
    constructor
    · simp only [reconstruct_steps]
      rw [if_pos hpar, List.length_map, List.length_range]
      rfl
    · intro c hc
      simp only [reconstruct_steps] at hc
      rw [if_pos hpar] at hc
      obtain ⟨i, _, rfl⟩ := List.mem_map.mp hc
      refine ⟨_, rfl, ?_, ?_⟩
      · rw [List.length_map]
        show ((s0 :: rest).enumFrom 0).length = _
        exact enumFrom_length _ 0
      · show containerActionFailed (s0 :: rest) i = true ↔ _
        exact container_failed_iff f i (s0 :: rest)
  · intro hle st hst
    simp only [reconstruct_steps] at hst
    rw [if_neg (by omega)] at hst
    obtain ⟨p, _, rfl⟩ := List.mem_map.mp hst
    rfl

/-- C5 witness: the parallel fixture whose first step carries three
actions yields three containers. -/
theorem reconstruct_containers_witness :
    1 < pStep1.actions.length ∧
    (reconstruct_steps fNone parallelRaw).length = pStep1.actions.length :=
  ⟨by decide,
    ((reconstruct_containers fNone parallelRaw).1 pStep1 [pStep2] rfl (by decide)).1⟩

/-- C6 counterexample: a reconstructed tree (through the full
`fetch_circleci_job_logs` pipeline) whose container 0 has a failed first
sub-step; after delivery every sub-step expansion flag is `false`, so
the failed sub-step starts collapsed, contradicting the claim that
failed entries start expanded "including at the sub-step level". -/
theorem job_logs_sub_default_counterexample :
    (handle_job_logs_result app0 (.jobLogsSuccess logs6)).job_logs_expanded_sub_steps =
      [[false, false], [false, false], [false, false]] ∧
    (logs6.steps.getD []).map
        (fun (c : JobStep) => (c.sub_steps.getD []).map JobStep.is_failed) =
      [[true, false], [false, false], [false, false]] := by
  exact ⟨rfl, rfl⟩

/-- C6 (amended): for every reconstructed step tree delivered to the
job-logs view, failed top-level entries start expanded and the others
collapsed, every sub-step (failed or not) starts collapsed, the initial
selection is the first failed entry — with, inside it, the first failed
sub-step when it has sub-steps — and when nothing failed the selection
is the first top-level entry with no sub-step selected. -/
theorem job_logs_defaults (app : App) (logs : JobLogs)
    (f : Nat → Nat → Option (Except String String)) (raw : List V1Step)
    (steps : List JobStep)
    (hsteps : logs.steps = some steps)
    (hrec : steps = reconstruct_steps f raw) :
    ((handle_job_logs_result app (.jobLogsSuccess logs)).job_logs_expanded_steps =
      steps.map JobStep.is_failed) ∧
    (∀ l ∈ (handle_job_logs_result app (.jobLogsSuccess logs)).job_logs_expanded_sub_steps,
      ∀ b ∈ l, b = false) ∧
    ((∃ st ∈ steps, st.is_failed = true) →
      ((steps.get? (handle_job_logs_result app
          (.jobLogsSuccess logs)).job_logs_selected_step).map JobStep.is_failed =
        some true ∧
       (∀ j, j < (handle_job_logs_result app
          (.jobLogsSuccess logs)).job_logs_selected_step →
        (steps.get? j).map JobStep.is_failed = some false) ∧
       (∀ l, (steps.get? (handle_job_logs_result app
            (.jobLogsSuccess logs)).job_logs_selected_step).bind JobStep.sub_steps =
          some l →
        ∃ k, (handle_job_logs_result app
            (.jobLogsSuccess logs)).job_logs_selected_sub_step = some k ∧
          (l.get? k).map JobStep.is_failed = some true ∧
          ∀ j, j < k → (l.get? j).map JobStep.is_failed = some false) ∧
       ((steps.get? (handle_job_logs_result app
            (.jobLogsSuccess logs)).job_logs_selected_step).bind JobStep.sub_steps =
          none →
        (handle_job_logs_result app
          (.jobLogsSuccess logs)).job_logs_selected_sub_step = none))) ∧
    ((∀ st ∈ steps, st.is_failed = false) →
      (handle_job_logs_result app (.jobLogsSuccess logs)).job_logs_selected_step = 0 ∧
      (handle_job_logs_result app (.jobLogsSuccess logs)).job_logs_selected_sub_step =
        none) := by
  simp only [handle_job_logs_result, hsteps]
  refine ⟨by trivial, ?_, ?_, ?_⟩
  · intro l hl
    obtain ⟨st, _, rfl⟩ := List.mem_map.mp hl
    intro b hb
    cases h : st.sub_steps with
    | some sub_steps =>
      rw [h] at hb
      exact List.eq_of_mem_replicate hb
    | none =>
      rw [h] at hb
      cases hb
  · rintro ⟨st, hst, hfail⟩
    obtain ⟨i, hpos⟩ := listPosition_isSome_of_mem hst hfail
    obtain ⟨hilen, higet, hibefore⟩ := listPosition_eq_some hpos
    rw [hpos]
    simp only [Option.getD_some]
    refine ⟨higet, hibefore, ?_, ?_⟩
    · intro l hbind
      cases hget : steps.get? i with
      | none => rw [hget] at hbind; cases hbind
      | some sti =>
        rw [hget] at hbind higet
        simp only [Option.some_bind] at hbind
        have hsti_failed : sti.is_failed = true := by simpa using higet
        have hmem : sti ∈ steps := List.get?_mem hget
        rw [hrec] at hmem
        obtain ⟨sub, hsubmem, hsubfail⟩ :=
          (reconstruct_invariant f raw sti hmem l hbind).mp hsti_failed
        obtain ⟨k, hkpos⟩ := listPosition_isSome_of_mem hsubmem hsubfail
        obtain ⟨_, hkget, hkbefore⟩ := listPosition_eq_some hkpos
        refine ⟨k, ?_, hkget, hkbefore⟩
        simp only [Option.some_bind]
        rw [hbind]
        simp only [Option.some_bind]
        exact hkpos
    · intro hbind
      cases hget : steps.get? i with
      | none => rfl
      | some sti =>
        rw [hget] at hbind
        simp only [Option.some_bind] at hbind
        simp [hbind]
  · intro hnone
    have hpos : listPosition JobStep.is_failed steps = none :=
      listPosition_eq_none.mpr hnone
    rw [hpos]
    simp only [Option.getD_none]
    refine ⟨by trivial, ?_⟩
    cases hget : steps.get? 0 with
    | none => rfl
    | some st0 =>
      simp only [Option.some_bind]
      cases hss : st0.sub_steps with
      | none => simp [hss]
      | some l =>
        have hmem : st0 ∈ steps := List.get?_mem hget
        have hst0 : st0.is_failed = false := hnone st0 hmem
        rw [hrec] at hmem
        have hiff := reconstruct_invariant f raw st0 hmem l hss
        have hall : ∀ sub ∈ l, sub.is_failed = false := by
          intro sub hsub
          by_contra hcon
          rw [Bool.not_eq_false] at hcon
          rw [hiff.mpr ⟨sub, hsub, hcon⟩] at hst0
          cases hst0
        simp [hss, listPosition_eq_none.mpr hall]

/-- C6 witness: the amended defaults applied to the reconstructed
parallel fixture. -/
theorem job_logs_defaults_witness :
    (handle_job_logs_result app0 (.jobLogsSuccess logs6)).job_logs_expanded_steps =
      (reconstruct_steps fNone parallelRaw).map JobStep.is_failed :=
  (job_logs_defaults app0 logs6 fNone parallelRaw
    (reconstruct_steps fNone parallelRaw) rfl rfl).1

/-- C8: for a job that would otherwise get a real log fetch (no
annotations, no empty-findings reviewdog signature, no non-empty summary
or text), whose details URL is a CircleCI URL, with no CircleCI token
configured, handling the open-job-logs message sets the job-logs content
to the configuration-instructions message, clears the loading flag, and
returns no command — no fetch of any kind is issued. -/
theorem circleci_unconfigured_message (m : Matcher) (app : App) (owner repo : String)
    (job : WorkflowJob) (url : String)
    (hjob : get_selected_job app = some (owner, repo, job))
    (hann : job.annotations = [])
    (hsum : job.summary = none ∨ job.summary = some "")
    (htext : job.text = none ∨ job.text = some "")
    (hurl : job.details_url = some url)
    (hcircle : is_circleci_url url = true) :
    (update m none app .openJobLogs).2 = none ∧
    (update m none app .openJobLogs).1.job_logs =
      some { job_id := job.id, job_name := job.name,
             content := circleciTokenMessage, steps := none } ∧
    (update m none app .openJobLogs).1.job_logs_loading = false := by
  have hrd : (job.summary.map fun s =>
      strContains s "reviewdog" && strContains s "Findings (0)").getD false = false := by
    rcases hsum with h | h <;> rw [h] <;> rfl
  have hhs : (job.summary.map fun s => !(s == "")).getD false = false := by
    rcases hsum with h | h <;> rw [h] <;> rfl
  have hht : (job.text.map fun s => !(s == "")).getD false = false := by
    rcases htext with h | h <;> rw [h] <;> rfl
  refine ⟨?_, ?_, ?_⟩ <;>
    simp [update, open_job_logs, hjob, hann, hrd, hhs, hht, hurl, hcircle,
      is_circleci_configured]

/-- C8 witness: a concrete state whose selected job is a CircleCI job,
with no token in the environment. -/
theorem circleci_unconfigured_message_witness :
    (update mW none app8 .openJobLogs).2 = none ∧
    (update mW none app8 .openJobLogs).1.job_logs =
      some { job_id := ciJob.id, job_name := ciJob.name,
             content := circleciTokenMessage, steps := none } :=
  ⟨(circleci_unconfigured_message mW app8 "o" "r" ciJob "https://circleci.com/gh/o/r/123"
      rfl rfl (Or.inl rfl) (Or.inl rfl) rfl rfl).1,
   (circleci_unconfigured_message mW app8 "o" "r" ciJob "https://circleci.com/gh/o/r/123"
      rfl rfl (Or.inl rfl) (Or.inl rfl) rfl rfl).2.1⟩

/-- C10: with a non-empty query, each index returned by `filter_prs` is
the position of the first PR whose haystack equals the corresponding
matched haystack; consequently every returned index is the first
occurrence of its haystack (so the later of two PRs with identical
haystacks is never returned), and when the haystacks are pairwise
distinct the returned indices are pairwise distinct. The matcher is
abstract, constrained only to return a sub-collection of its input
haystacks. -/
theorem filter_prs_first_position (m : Matcher) (prs : List PullRequest) (query : String)
    (hq : query ≠ "")
    (hsub : List.Subperm (m query (prs.map prHaystack)) (prs.map prHaystack)) :
    (∀ i ∈ filter_prs m prs query, ∃ h ∈ m query (prs.map prHaystack),
      listPosition (fun s => s == h) (prs.map prHaystack) = some i) ∧
    (∀ i ∈ filter_prs m prs query, ((prs.map prHaystack).get? i).isSome = true ∧
      ∀ j, j < i → (prs.map prHaystack).get? j ≠ (prs.map prHaystack).get? i) ∧
    ((prs.map prHaystack).Nodup → (filter_prs m prs query).Nodup) := by
  have hres : filter_prs m prs query = (m query (prs.map prHaystack)).map fun h =>
      (listPosition (fun s => s == h) (prs.map prHaystack)).getD
        (prs.map prHaystack).length := by
    unfold filter_prs
    rw [if_neg hq]
  refine ⟨?_, ?_, ?_⟩
  · intro i hi
    rw [hres] at hi
    obtain ⟨h, hh, rfl⟩ := List.mem_map.mp hi
    have hex : ∃ j, listPosition (fun s => s == h) (prs.map prHaystack) = some j :=
      listPosition_isSome_of_mem (hsub.subset hh) (by simp)
    obtain ⟨j, hj⟩ := hex
    refine ⟨h, hh, ?_⟩
    rw [hj]
    simp
  · intro i hi
    rw [hres] at hi
    obtain ⟨h, hh, rfl⟩ := List.mem_map.mp hi
    have hex : ∃ j, listPosition (fun s => s == h) (prs.map prHaystack) = some j :=
      listPosition_isSome_of_mem (hsub.subset hh) (by simp)
    obtain ⟨j, hj⟩ := hex
    obtain ⟨hjlen, hjget, hjbefore⟩ := listPosition_eq_some hj
    rw [hj, Option.getD_some]
    cases hget : (prs.map prHaystack).get? j with
    | none => rw [hget] at hjget; cases hjget
    | some s =>
      rw [hget] at hjget
      simp only [Option.map_some', Option.some.injEq] at hjget
      refine ⟨rfl, ?_⟩
      intro jj hjj
      have hbefore := hjbefore jj hjj
      cases hget2 : (prs.map prHaystack).get? jj with
      | none => rw [hget2] at hbefore; cases hbefore
      | some s2 =>
        rw [hget2] at hbefore
        simp only [Option.map_some', Option.some.injEq] at hbefore
        intro heq
        have hss : s2 = s := by injection heq
        rw [hss, hjget] at hbefore
        cases hbefore
  · intro hnd
    rw [hres]
    have hndm : (m query (prs.map prHaystack)).Nodup := by
      obtain ⟨lmid, hperm, hsubl⟩ := hsub
      exact hperm.nodup_iff.mp (List.Nodup.sublist hsubl hnd)
    refine List.Nodup.map_on ?_ hndm
    intro x hx y hy hgxy
    have hexx : ∃ j, listPosition (fun s => s == x) (prs.map prHaystack) = some j :=
      listPosition_isSome_of_mem (hsub.subset hx) (by simp)
    have hexy : ∃ j, listPosition (fun s => s == y) (prs.map prHaystack) = some j :=
      listPosition_isSome_of_mem (hsub.subset hy) (by simp)
    obtain ⟨jx, hjx⟩ := hexx
    obtain ⟨jy, hjy⟩ := hexy
    have hgxy2 : (listPosition (fun s => s == x) (prs.map prHaystack)).getD
        (prs.map prHaystack).length =
      (listPosition (fun s => s == y) (prs.map prHaystack)).getD
        (prs.map prHaystack).length := hgxy
    rw [hjx, hjy, Option.getD_some, Option.getD_some] at hgxy2
    obtain ⟨_, hjxget, _⟩ := listPosition_eq_some hjx
    obtain ⟨_, hjyget, _⟩ := listPosition_eq_some hjy
    rw [hgxy2] at hjxget
    cases hget : (prs.map prHaystack).get? jy with
    | none =>
      rw [hget] at hjxget
      cases hjxget
    | some s =>
      rw [hget] at hjxget hjyget
      simp only [Option.map_some', Option.some.injEq] at hjxget hjyget
      exact (beq_iff_eq.mp hjxget).symm.trans (beq_iff_eq.mp hjyget)

/-- C7: for every job-logs state with a non-empty step tree and a
consistent selection (a selected sub-step index points into the
sub-steps of the selected, expanded step), "Next" descends into the
sub-steps of an expanded step before advancing (first conjunct 2), and
"Previous" is its exact mirror: whenever "Next" changes the
(step, sub-step) selection, "Previous" applied right after restores the
original selection (conjunct 1), landing on the last sub-step of the
prior step when that step is expanded with non-empty sub-steps
(conjunct 3). -/
theorem job_logs_next_prev_mirror (app : App) (logs : JobLogs) (steps : List JobStep)
    (hlogs : app.job_logs = some logs) (hsteps : logs.steps = some steps)
    (hne : steps ≠ [])
    (hcur : app.job_logs_selected_step < steps.length)
    (hsub : ∀ k, app.job_logs_selected_sub_step = some k →
      (app.job_logs_expanded_steps.get? app.job_logs_selected_step).getD false = true ∧
      ∃ l, (steps.get? app.job_logs_selected_step).bind JobStep.sub_steps = some l ∧
        k < l.length) :
    ((((job_logs_next_step app).job_logs_selected_step,
        (job_logs_next_step app).job_logs_selected_sub_step) ≠
      (app.job_logs_selected_step, app.job_logs_selected_sub_step)) →
      (job_logs_prev_step (job_logs_next_step app)).job_logs_selected_step =
          app.job_logs_selected_step ∧
        (job_logs_prev_step (job_logs_next_step app)).job_logs_selected_sub_step =
          app.job_logs_selected_sub_step) ∧
    (app.job_logs_selected_sub_step = none →
      (app.job_logs_expanded_steps.get? app.job_logs_selected_step).getD false = true →
      ∀ l, (steps.get? app.job_logs_selected_step).bind JobStep.sub_steps = some l →
      l ≠ [] →
      (job_logs_next_step app).job_logs_selected_step = app.job_logs_selected_step ∧
      (job_logs_next_step app).job_logs_selected_sub_step = some 0) ∧
    (app.job_logs_selected_sub_step = none → 0 < app.job_logs_selected_step →
      ∀ l, (steps.get? (app.job_logs_selected_step - 1)).bind JobStep.sub_steps = some l →
      l ≠ [] →
      (app.job_logs_expanded_steps.get? (app.job_logs_selected_step - 1)).getD false =
        true →
      (job_logs_prev_step app).job_logs_selected_step =
          app.job_logs_selected_step - 1 ∧
        (job_logs_prev_step app).job_logs_selected_sub_step =
          some (l.length - 1)) := by
  have hveq : ((((steps.get? app.job_logs_selected_step).bind JobStep.sub_steps).map
        fun ss => !ss.isEmpty).getD false &&
      (app.job_logs_expanded_steps.get? app.job_logs_selected_step).getD false) =
      ((app.job_logs_expanded_steps.get? app.job_logs_selected_step).getD false &&
        decide ((((steps.get? app.job_logs_selected_step).bind JobStep.sub_steps).map
          List.length).getD 0 > 0)) := by
    cases hb : (steps.get? app.job_logs_selected_step).bind JobStep.sub_steps with
    | none => simp
    | some l =>
      cases l with
      | nil => simp
      | cons a as => simp [Bool.and_comm]
  refine ⟨?_, ?_, ?_⟩
  · intro hchange
    cases hcs : app.job_logs_selected_sub_step with
    | none =>
      by_cases hHE : ((((steps.get? app.job_logs_selected_step).bind JobStep.sub_steps).map
          fun ss => !ss.isEmpty).getD false &&
        (app.job_logs_expanded_steps.get? app.job_logs_selected_step).getD false) = true
      · have hnext : job_logs_next_step app =
            { app with job_logs_selected_sub_step := some 0 } := by
          simp only [job_logs_next_step, hlogs, hsteps, hcs]
          rw [if_pos hHE]
        rw [hnext]
        refine ⟨?_, ?_⟩ <;> simp [job_logs_prev_step, hlogs, hsteps, hcs]
      · by_cases hlt : app.job_logs_selected_step < steps.length - 1
        · have hnext : job_logs_next_step app =
              { app with
                job_logs_selected_step := app.job_logs_selected_step + 1
                job_logs_selected_sub_step := none } := by
            simp only [job_logs_next_step, hlogs, hsteps, hcs]
            rw [if_neg hHE, if_pos hlt]
          rw [hnext]
          have hEL : ¬(((app.job_logs_expanded_steps.get?
              (app.job_logs_selected_step + 1 - 1)).getD false &&
              decide ((((steps.get? (app.job_logs_selected_step + 1 - 1)).bind
                JobStep.sub_steps).map List.length).getD 0 > 0)) = true) := by
            rw [Nat.add_sub_cancel, ← hveq]
            exact fun hc => hHE hc
          constructor
          · simp only [job_logs_prev_step, hlogs, hsteps]
            rw [if_pos (Nat.succ_pos _), if_neg hEL]
            show app.job_logs_selected_step + 1 - 1 = app.job_logs_selected_step
            omega
          · simp only [job_logs_prev_step, hlogs, hsteps]
            rw [if_pos (Nat.succ_pos _), if_neg hEL]
        · have hnext : job_logs_next_step app = app := by
            simp only [job_logs_next_step, hlogs, hsteps, hcs]
            rw [if_neg hHE, if_neg hlt]
          rw [hnext] at hchange
          exact absurd rfl hchange
    | some k =>
      obtain ⟨hexp, l, hbind, hk⟩ := hsub k hcs
      have hlne : l ≠ [] := by
        intro h
        rw [h] at hk
        exact absurd hk (Nat.not_lt_zero k)
      have hHE : ((((steps.get? app.job_logs_selected_step).bind JobStep.sub_steps).map
          fun ss => !ss.isEmpty).getD false &&
          (app.job_logs_expanded_steps.get? app.job_logs_selected_step).getD false) =
          true := by
        rw [hexp, hbind]
        cases l with
        | nil => exact absurd rfl hlne
        | cons a as => rfl
      have hL : (((steps.get? app.job_logs_selected_step).bind JobStep.sub_steps).map
          List.length).getD 0 = l.length := by
        rw [hbind]
        rfl
      by_cases hklt : k < (((steps.get? app.job_logs_selected_step).bind
          JobStep.sub_steps).map List.length).getD 0 - 1
      · have hnext : job_logs_next_step app =
            { app with job_logs_selected_sub_step := some (k + 1) } := by
          simp only [job_logs_next_step, hlogs, hsteps, hcs]
          rw [if_pos hHE, if_pos hklt]
        rw [hnext]
        constructor
        · simp only [job_logs_prev_step, hlogs, hsteps]
          rw [if_pos (Nat.succ_pos k)]
        · simp only [job_logs_prev_step, hlogs, hsteps]
          rw [if_pos (Nat.succ_pos k), Nat.add_sub_cancel]
      · by_cases hlt : app.job_logs_selected_step < steps.length - 1
        · have hnext : job_logs_next_step app =
              { app with
                job_logs_selected_step := app.job_logs_selected_step + 1
                job_logs_selected_sub_step := none } := by
            simp only [job_logs_next_step, hlogs, hsteps, hcs]
            rw [if_pos hHE, if_neg hklt, if_pos hlt]
          rw [hnext]
          have hkeq : k = l.length - 1 := by
            rw [hL] at hklt
            omega
          have hEL : ((app.job_logs_expanded_steps.get?
                (app.job_logs_selected_step + 1 - 1)).getD false &&
              decide ((((steps.get? (app.job_logs_selected_step + 1 - 1)).bind
                JobStep.sub_steps).map List.length).getD 0 > 0)) = true := by
            rw [Nat.add_sub_cancel, hexp, hbind]
            cases l with
            | nil => exact absurd rfl hlne
            | cons a as => simp
          constructor
          · simp only [job_logs_prev_step, hlogs, hsteps]
            rw [if_pos (Nat.succ_pos _), if_pos hEL]
            show app.job_logs_selected_step + 1 - 1 = app.job_logs_selected_step
            omega
          · simp only [job_logs_prev_step, hlogs, hsteps]
            rw [if_pos (Nat.succ_pos _), if_pos hEL]
            show some ((((steps.get? (app.job_logs_selected_step + 1 - 1)).bind
              JobStep.sub_steps).map List.length).getD 0 - 1) = some k
            rw [Nat.add_sub_cancel, hL, hkeq]
        · have hnext : job_logs_next_step app = app := by
            simp only [job_logs_next_step, hlogs, hsteps, hcs]
            rw [if_pos hHE, if_neg hklt, if_neg hlt]
          rw [hnext] at hchange
          exact absurd rfl hchange
  · intro hcs hexp l hbind hlne
    have hHE : ((((steps.get? app.job_logs_selected_step).bind JobStep.sub_steps).map
        fun ss => !ss.isEmpty).getD false &&
        (app.job_logs_expanded_steps.get? app.job_logs_selected_step).getD false) =
        true := by
      rw [hexp, hbind]
      cases l with
      | nil => exact absurd rfl hlne
      | cons a as => rfl
    constructor
    · simp only [job_logs_next_step, hlogs, hsteps, hcs]
      rw [if_pos hHE]
    · simp only [job_logs_next_step, hlogs, hsteps, hcs]
      rw [if_pos hHE]
  · intro hcs hpos l hbind hlne hexp
    have hEL : ((app.job_logs_expanded_steps.get?
          (app.job_logs_selected_step - 1)).getD false &&
        decide ((((steps.get? (app.job_logs_selected_step - 1)).bind
          JobStep.sub_steps).map List.length).getD 0 > 0)) = true := by
      rw [hexp, hbind]
      cases l with
      | nil => exact absurd rfl hlne
      | cons a as => simp
    constructor
    · simp only [job_logs_prev_step, hlogs, hsteps, hcs]
      rw [if_pos hpos, if_pos hEL]
    · simp only [job_logs_prev_step, hlogs, hsteps, hcs]
      rw [if_pos hpos, if_pos hEL]
      show some ((((steps.get? (app.job_logs_selected_step - 1)).bind
        JobStep.sub_steps).map List.length).getD 0 - 1) = some (l.length - 1)
      rw [hbind]
      rfl

/-- C7 witness: "Next" on the concrete state positioned on an expanded
container descends to its first sub-step without changing the step. -/
theorem job_logs_next_prev_mirror_witness :
    (job_logs_next_step app7).job_logs_selected_step = app7.job_logs_selected_step ∧
    (job_logs_next_step app7).job_logs_selected_sub_step = some 0 :=
  (job_logs_next_prev_mirror app7 logs7 steps7 rfl rfl (List.cons_ne_nil _ _)
      (by decide) (fun k h => Option.noConfusion h)).2.1
    rfl rfl [step7sub, step7sub] rfl (List.cons_ne_nil _ _)

/-- C10 witness: a matcher returning exactly one of two distinct
haystacks yields a duplicate-free index list. -/
theorem filter_prs_first_position_witness :
    filter_prs m10 prs10 "q" = [1] ∧ (filter_prs m10 prs10 "q").Nodup :=
  ⟨rfl,
    (filter_prs_first_position m10 prs10 "q" (by decide)
      (List.Sublist.subperm
        (List.Sublist.cons (prHaystack prA)
          (List.Sublist.cons₂ (prHaystack prB) List.Sublist.slnil)))).2.2
      (by decide)⟩

/-- C1 witness: the pending PR #42 resolved by a concrete fetch
result. -/
theorem pending_pr_resolution_witness :
    (update mW none app1 (.fetchComplete (.success [pr42] .myPrs))).2 =
      some (.startActionsFetch pr42.repo_owner pr42.repo_name pr42.number "abc123") ∧
    (update mW none app1 (.fetchComplete (.success [pr42] .myPrs))).1.bucket .myPrs =
      [pr42] :=
  ⟨(pending_pr_resolution mW none app1 [pr42] .myPrs 42 pr42 "abc123" rfl rfl rfl).1,
    (pending_pr_resolution mW none app1 [pr42] .myPrs 42 pr42 "abc123" rfl rfl rfl).2.2.2⟩

end Ghui
